import Mathlib

/-
Verification of the media webviewer core (generate_webviewer.py).

Durations and timestamps are modelled as rationals, file contents as byte
lists, the artifact store as two name-keyed partial maps (one per output
directory), and the ratings table as a hash-keyed partial map of rows.
External tools (ffmpeg, Pillow) are modelled by an environment record that
fixes, per target name, whether an invocation succeeds.
-/

namespace Webviewer

/-- VIDEO_PREVIEW_COUNT -/
def videoPreviewCount : Nat := 8

/-- PREVIEW_STEP_SECONDS -/
def previewStepSeconds : ℚ := 2

/-- PREVIEW_START_SECONDS -/
def previewStartSeconds : ℚ := 10

/-- compute_thumbnail_offset: `if duration and duration > 0: if duration <
PREVIEW_START_SECONDS: return max(duration * 0.1, 0.0)` then `return
float(PREVIEW_START_SECONDS)`.  (`duration and duration > 0` is truthiness
followed by the sign test, i.e. `0 < d` for a present value.) -/
def computeThumbnailOffset (duration : Option ℚ) : ℚ :=
  match duration with
  | some d =>
      if 0 < d then
        if d < previewStartSeconds then max (d * (1 / 10)) 0
        else previewStartSeconds
      else previewStartSeconds
  | none => previewStartSeconds

/-- The fallback arithmetic sequence used by compute_preview_offsets when the
duration is unknown or non-positive. -/
def fallbackPreviewOffsets : List ℚ :=
  (List.range videoPreviewCount).map
    (fun (idx : ℕ) => previewStartSeconds + previewStepSeconds * (idx : ℚ))

/-- compute_preview_offsets: for a known positive duration,
`step = max(duration / (VIDEO_PREVIEW_COUNT + 1), 0.1)`,
`max_time = max(duration - 0.5, 0.0)`, and each position
`step * (index + 1)` is clamped to `max_time` when it exceeds it and
`max_time > 0`. -/
def computePreviewOffsets (duration : Option ℚ) : List ℚ :=
  match duration with
  | none => fallbackPreviewOffsets
  | some d =>
      if d ≤ 0 then fallbackPreviewOffsets
      else
        let step : ℚ := max (d / ((videoPreviewCount : ℚ) + 1)) (1 / 10)
        let maxTime : ℚ := max (d - 1 / 2) 0
        (List.range videoPreviewCount).map (fun (index : ℕ) =>
          let position := step * ((index : ℚ) + 1)
          if maxTime < position ∧ 0 < maxTime then maxTime else position)

/-! ## Content hasher (compute_file_hash) -/

/-- A file signature, `f"{stat.st_mtime_ns}:{stat.st_size}"`, modelled as the
pair it serialises. -/
structure Sig where
  mtimeNs : Int
  size : Nat
deriving DecidableEq

/-- One hash-cache entry: `{"sig": ..., "hash": ...}`. -/
structure HashCacheEntry where
  sig : Sig
  hash : String
deriving DecidableEq

/-- The mutable hasher state: HASH_CACHE and HASH_CACHE_DIRTY. -/
structure HashState where
  cache : String → Option HashCacheEntry
  dirty : Bool

/-- The filesystem facts compute_file_hash consults: per-path stat data and
byte contents, and the digest function (sha256 folded over the chunks of the
file, i.e. over its full byte content). -/
structure HashEnv where
  stat : String → Sig
  contents : String → List Nat
  digest : List Nat → String

/-- The outcome of one compute_file_hash call: the returned hash, the new
cache state, and whether the file's bytes were read. -/
structure HashResult where
  hash : String
  state : HashState
  readBytes : Bool

/-- compute_file_hash: return the cached hash if the cached signature matches
the current one; otherwise digest the file contents, overwrite the cache
entry and set the dirty flag. -/
def computeFileHash (env : HashEnv) (st : HashState) (path : String) :
    HashResult :=
  let signature := env.stat path
  let hit : Option String :=
    match st.cache path with
    | some entry => if entry.sig = signature then some entry.hash else none
    | none => none
  match hit with
  | some cachedHash => { hash := cachedHash, state := st, readBytes := false }
  | none =>
      let fileHash := env.digest (env.contents path)
      { hash := fileHash
        state :=
          { cache := fun k => if k = path then
                some { sig := signature, hash := fileHash } else st.cache k
            dirty := true }
        readBytes := true }

/-- Concrete hasher environment used by the C6 witness. -/
def hashEnvW : HashEnv :=
  { stat := fun _ => { mtimeNs := 5, size := 3 }
    contents := fun _ => [1, 2, 3]
    digest := fun _ => "digest" }

/-- Concrete hasher state used by the C6 witness: a cache hit for "a". -/
def hashStW : HashState :=
  { cache := fun k => if k = "a" then
      some { sig := { mtimeNs := 5, size := 3 }, hash := "h0" } else none
    dirty := false }

/-! ## Ratings store (init_db, update_rating, increment_play_count) -/

/-- One row of the `ratings` table.  The schema declares
`score INTEGER NOT NULL DEFAULT 0` and `play_count INTEGER NOT NULL DEFAULT
0`, so a column omitted by an INSERT takes the value 0. -/
structure RatingRow where
  score : Int
  playCount : Int
  updatedAt : Int
deriving DecidableEq

/-- The `ratings` table: primary key `hash` → row. -/
def RatingsDb : Type := String → Option RatingRow

/-- update_rating: read the current score (absence means insert), add the
delta, and write back score and updated_at only; on insert play_count takes
its schema default 0.  Returns the new score. -/
def updateRating (db : RatingsDb) (mediaHash : String) (delta : Int)
    (now : Int) : Int × RatingsDb :=
  match db mediaHash with
  | some row =>
      let score := row.score + delta
      (score, fun k => if k = mediaHash then
          some { row with score := score, updatedAt := now } else db k)
  | none =>
      (delta, fun k => if k = mediaHash then
          some { score := delta, playCount := 0, updatedAt := now } else db k)

/-- increment_play_count: read the current play count (absence means
insert), add one, and write back play_count and updated_at only; on insert
score takes its schema default 0.  Returns the new count. -/
def incrementPlayCount (db : RatingsDb) (mediaHash : String) (now : Int) :
    Int × RatingsDb :=
  match db mediaHash with
  | some row =>
      let count := row.playCount + 1
      (count, fun k => if k = mediaHash then
          some { row with playCount := count, updatedAt := now } else db k)
  | none =>
      (1, fun k => if k = mediaHash then
          some { score := 0, playCount := 1, updatedAt := now } else db k)

/-! ## In-memory index entries and the rate / play API handlers -/

/-- One MediaEntry row of the in-memory index. -/
structure MediaEntry where
  relativePath : String
  name : String
  mediaHash : String
  mediaType : String
  size : Nat
  modified : ℚ
  thumbnailName : String
  previewNames : List String
  rating : Int
  duration : Option ℚ
  playCount : Int
deriving DecidableEq

/-- api_rate: reject a missing hash or a delta outside {+1, -1}; otherwise
write the delta through update_rating and patch the rating of every cached
entry whose hash matches.  Returns the new store, the patched entry list and
the new score. -/
def apiRate (db : RatingsDb) (cache : List MediaEntry)
    (mediaHash : Option String) (delta : Int) (now : Int) :
    Except Unit (RatingsDb × List MediaEntry × Int) :=
  match mediaHash with
  | none => .error ()
  | some h =>
      if delta = 1 ∨ delta = -1 then
        let r := updateRating db h delta now
        .ok (r.2,
          cache.map (fun e =>
            if e.mediaHash = h then { e with rating := r.1 } else e),
          r.1)
      else .error ()

/-- api_play: reject a missing hash; otherwise write through
increment_play_count and patch the play count of every cached entry whose
hash matches.  Returns the new store, the patched entry list and the new
count. -/
def apiPlay (db : RatingsDb) (cache : List MediaEntry)
    (mediaHash : Option String) (now : Int) :
    Except Unit (RatingsDb × List MediaEntry × Int) :=
  match mediaHash with
  | none => .error ()
  | some h =>
      let r := incrementPlayCount db h now
      .ok (r.2,
        cache.map (fun e =>
          if e.mediaHash = h then { e with playCount := r.1 } else e),
        r.1)

/-- A two-entry index (two paths, same content hash) for the C8 witness. -/
def entryW (p : String) : MediaEntry :=
  { relativePath := p, name := p, mediaHash := "x", mediaType := "image"
    size := 1, modified := 0, thumbnailName := "x.jpg", previewNames := []
    rating := 0, duration := none, playCount := 0 }

/-! ## Artifact generator (ensure_thumbnails) -/

/-- The artifact store: the thumbnails directory and the previews directory,
each mapping a file name to the byte size of the file stored there (`some 0`
is a zero-length sentinel, `none` means absent). -/
structure ArtifactFs where
  thumbs : String → Option Nat
  previews : String → Option Nat

/-- Write a file of the given size into the thumbnails directory. -/
def writeThumb (fs : ArtifactFs) (name : String) (size : Nat) : ArtifactFs :=
  { fs with thumbs := fun k => if k = name then some size else fs.thumbs k }

/-- Write a file of the given size into the previews directory. -/
def writePreview (fs : ArtifactFs) (name : String) (size : Nat) : ArtifactFs :=
  { fs with previews := fun k => if k = name then some size else fs.previews k }

/-- The external-tool environment: whether the single ffmpeg frame
extraction for a given (source, destination name, seek offset) succeeds,
whether Pillow is importable, whether Pillow can decode a given source, and
source byte sizes (used by the no-Pillow copy fallback). -/
structure ToolEnv where
  ffmpegOk : String → String → ℚ → Bool
  pillowAvailable : Bool
  imageDecodeOk : String → Bool
  srcSize : String → Nat

/-- The thumbnail artifact name, `f"{media_hash}.jpg"`. -/
def thumbName (mediaHash : String) : String := mediaHash ++ ".jpg"

/-- The preview artifact name, `f"{media_hash}_{index}.jpg"`. -/
def previewName (mediaHash : String) (index : Nat) : String :=
  mediaHash ++ ("_" ++ toString index ++ ".jpg")

/-- generate_image_thumbnail: without Pillow, copy the source bytes to the
destination verbatim (no image-tool invocation); with Pillow, `Image.open`
is invoked — that is one image-tool invocation, counted in the second
component whether the decode succeeds (re-encode to the destination) or
raises out of the function before anything is written. -/
def generateImageThumbnail (env : ToolEnv) (fs : ArtifactFs)
    (src dest : String) : Except Unit ArtifactFs × Nat :=
  if env.pillowAvailable = false then
    (.ok (writeThumb fs dest (env.srcSize src)), 0)
  else if env.imageDecodeOk src then
    (.ok (writeThumb fs dest 1), 1)
  else
    (.error (), 1)

/-- The preview loop of ensure_thumbnails over the enumerated offsets:
each name is always appended to the result list; generation (one ffmpeg
invocation via generate_video_thumbnail, counted) happens only when the file
is absent, and a failed invocation writes the zero-length sentinel.
Returns (store, preview names, ffmpeg invocation count). -/
def previewLoop (env : ToolEnv) (src mediaHash : String) :
    List (Nat × ℚ) → ArtifactFs → ArtifactFs × List String × Nat
  | [], fs => (fs, [], 0)
  | (index, offset) :: rest, fs =>
      let name := previewName mediaHash index
      if (fs.previews name).isSome then
        let r := previewLoop env src mediaHash rest fs
        (r.1, name :: r.2.1, r.2.2)
      else if env.ffmpegOk src name (max offset 0) then
        let r := previewLoop env src mediaHash rest (writePreview fs name 1)
        (r.1, name :: r.2.1, r.2.2 + 1)
      else
        let r := previewLoop env src mediaHash rest (writePreview fs name 0)
        (r.1, name :: r.2.1, r.2.2 + 1)

/-- The outcome of an ensure_thumbnails call: the artifact store afterwards,
the returned (thumbnail name, preview names) or the propagated exception,
and how many invocations of each external generation tool — ffmpeg frame
extraction and Pillow image decode — the call made. -/
structure EnsureResult where
  fs : ArtifactFs
  res : Except Unit (String × List String)
  ffmpegCalls : Nat
  pillowCalls : Nat

/-- ensure_thumbnails: generate the thumbnail if absent (video: one ffmpeg
call, sentinel on failure; image: Pillow path that may raise), then, for a
video, run the preview loop over the enumerated preview offsets. -/
def ensureThumbnails (env : ToolEnv) (fs : ArtifactFs) (src mediaHash : String)
    (isVideo : Bool) (duration : Option ℚ) : EnsureResult :=
  let tn := thumbName mediaHash
  let thumbPhase : Except Unit ArtifactFs × Nat × Nat :=
    if (fs.thumbs tn).isSome then (.ok fs, 0, 0)
    else if isVideo then
      let offset := computeThumbnailOffset duration
      if env.ffmpegOk src tn (max offset 0) then (.ok (writeThumb fs tn 1), 1, 0)
      else (.ok (writeThumb fs tn 0), 1, 0)
    else
      let g := generateImageThumbnail env fs src tn
      (g.1, 0, g.2)
  match thumbPhase with
  | (.error e, _, np) =>
      { fs := fs, res := .error e, ffmpegCalls := 0, pillowCalls := np }
  | (.ok fs1, n1, np) =>
      if isVideo then
        let r := previewLoop env src mediaHash
          (computePreviewOffsets duration).enum fs1
        { fs := r.1, res := .ok (tn, r.2.1), ffmpegCalls := n1 + r.2.2
          pillowCalls := np }
      else
        { fs := fs1, res := .ok (tn, []), ffmpegCalls := n1, pillowCalls := np }

/-- The completely empty artifact store. -/
def emptyFs : ArtifactFs := { thumbs := fun _ => none, previews := fun _ => none }

/-- A tool environment in which Pillow is importable but cannot decode the
source (a corrupt image): the decode error propagates. -/
def toolEnvBadImage : ToolEnv :=
  { ffmpegOk := fun _ _ _ => true
    pillowAvailable := true
    imageDecodeOk := fun _ => false
    srcSize := fun _ => 4 }

/-- A tool environment in which every ffmpeg invocation fails. -/
def toolEnvFfmpegFail : ToolEnv :=
  { ffmpegOk := fun _ _ _ => false
    pillowAvailable := true
    imageDecodeOk := fun _ => true
    srcSize := fun _ => 4 }

/-! ## Reindex error flow (refresh_media_index over a vanishing file) -/

/-- The filesystem facts the reindex loop consults: whether a scanned file
has vanished by the time it is stat'ed/hashed, and its content identity
otherwise. -/
structure ScanEnv where
  vanished : String → Bool
  fileHash : String → String

/-- One row as built by the refresh_media_index loop (the fields relevant
to the error flow: path and content identity). -/
structure IndexRow where
  relativePath : String
  mediaHash : String
deriving DecidableEq

/-- compute_file_hash as seen by refresh_media_index when a scanned file may
vanish: `path.stat()` (and `path.open`) raise an I/O error for a vanished
file, and the exception propagates out of compute_file_hash; otherwise the
content identity is produced. -/
def computeFileHashE (env : ScanEnv) (path : String) : Except Unit String :=
  if env.vanished path then .error () else .ok (env.fileHash path)

/-- The per-file loop of refresh_media_index: the body
(`media_hash = compute_file_hash(path)` and the following stat) is not
wrapped in any try/except, so the first I/O error aborts the whole build.
Duration probing and artifact generation are elided: on the video paths
they swallow their own tool failures and cannot raise here. -/
def buildIndexRows (env : ScanEnv) : List String → Except Unit (List IndexRow)
  | [] => .ok []
  | path :: rest =>
      match computeFileHashE env path with
      | .error e => .error e
      | .ok h =>
          match buildIndexRows env rest with
          | .error e => .error e
          | .ok rows => .ok ({ relativePath := path, mediaHash := h } :: rows)

/-- refresh_media_index: the new entry list is built first and only swapped
into MEDIA_CACHE after the loop completes; an exception leaves the old
index in place and propagates to the caller.  Returns (outcome, resulting
in-memory index). -/
def refreshMediaIndex (env : ScanEnv) (files : List String)
    (oldCache : List IndexRow) :
    Except Unit (List IndexRow) × List IndexRow :=
  match buildIndexRows env files with
  | .error e => (.error e, oldCache)
  | .ok rows => (.ok rows, rows)

/-- The old index row used by the C4 evaluation. -/
def oldRowW : IndexRow := { relativePath := "old.jpg", mediaHash := "h0" }

/-- The scan world of the C4 evaluation: the scan returned two files and
"gone.mp4" vanishes before it is hashed. -/
def scanEnvW : ScanEnv :=
  { vanished := fun p => p = "gone.mp4", fileHash := fun _ => "h1" }

/-! ## Directory scanner (iter_media_files) -/

/-- IMAGE_EXTENSIONS. -/
def imageExtensionList : List String :=
  [".jpg", ".jpeg", ".png", ".gif", ".bmp", ".webp"]

/-- VIDEO_EXTENSIONS. -/
def videoExtensionList : List String :=
  [".mp4", ".mkv", ".mov", ".avi", ".webm", ".m4v"]

/-- MEDIA_EXTENSIONS. -/
def mediaExtensionList : List String := imageExtensionList ++ videoExtensionList

/-- `str.lower()` over the characters of a string. -/
def lowerString (s : String) : String := String.mk (s.data.map Char.toLower)

/-- `filename.startswith(".")`: the first character is a dot. -/
def startsWithDot (s : String) : Bool :=
  match s.data with
  | [] => false
  | c :: _ => c = '.'

/-- `PurePath.suffix`: the final component's extension from the last dot,
empty when the dot is absent, leading, or trailing (pathlib's
`0 < i < len(name) - 1` rule). -/
def pySuffix (name : String) : String :=
  let cs := name.data
  match ((List.range cs.length).filter
      (fun i => cs.get? i = some '.')).getLast? with
  | none => ""
  | some i =>
      if 0 < i ∧ i < cs.length - 1 then String.mk (cs.drop i) else ""

/-- The file filter of the scan loop: skip names starting with a dot, keep
recognized media extensions. -/
def keepFile (name : String) : Bool :=
  !(startsWithDot name) && mediaExtensionList.contains (lowerString (pySuffix name))

/-- A directory tree: named subdirectories and plain file names. -/
inductive DirTree where
  | node (dirs : List (String × DirTree)) (files : List String)

/-- The pruning test of the walk loop: `root_path == METADATA_ROOT or
METADATA_ROOT in root_path.parents`, i.e. the current directory is the
metadata area or below it (relative to APP_ROOT: the first path component
is "_metadata"). -/
def underMetadata (cur : List String) : Bool :=
  match cur with
  | [] => false
  | c :: _ => c = "_metadata"

mutual

/-- The os.walk loop body of iter_media_files: prune the metadata area
entirely; elsewhere collect the files that pass the filter and descend into
every subdirectory.  (The `dirs[:] = [d for d in dirs if not
d.startswith('.') ...]` filtering in the source is dead code — it sits
after a `continue` — so hidden directories are descended into; only hidden
file names are skipped.) -/
def walkFiles (cur : List String) : DirTree → List (List String)
  | .node dirs files =>
      if underMetadata cur then []
      else
        (files.filter keepFile).map (fun f => cur ++ [f]) ++ walkDirs cur dirs

/-- Walk the subdirectories in order. -/
def walkDirs (cur : List String) : List (String × DirTree) → List (List String)
  | [] => []
  | (dname, sub) :: rest => walkFiles (cur ++ [dname]) sub ++ walkDirs cur rest

end

/-- Join path components the POSIX way, as `Path.relative_to(...).as_posix()`
renders them and as `Path` ordering compares them. -/
def joinPath (parts : List String) : String := String.intercalate "/" parts

/-- iter_media_files: walk the tree and return the matching paths sorted
(`entries.sort()` orders `Path`s by their path string). -/
def iterMediaFiles (root : DirTree) : List String :=
  ((walkFiles [] root).map joinPath).mergeSort (fun a b => decide (a ≤ b))

/-- The directory tree of the C7 evaluation: a hidden directory holding a
video, the metadata area holding an image, a regular image and a hidden
image at top level. -/
def treeW : DirTree :=
  .node
    [(".secret", .node [] ["movie.mp4"]),
     ("_metadata", .node [] ["x.jpg"])]
    ["pic.png", ".hidden.png"]

/-! ## Reindex swap vs. concurrent query (MEDIA_LOCK interleavings)

refresh_media_index mutates the shared MEDIA_CACHE in several statements
(slice-assign, lookup rebuild, scan-metadata update), all inside one
`with MEDIA_LOCK` block; filter_entries copies the list inside its own
`with MEDIA_LOCK` block.  The model is the interleaving of those two
critical sections: the writer's swap passes through a transient `mid`
cache generation that a reader could only observe by holding the lock at
the same time. -/

/-- An abstract generation of the shared MEDIA_CACHE list: the old list,
the transient mid-swap contents, or the new list. -/
inductive CacheGen where
  | old
  | mid
  | new
deriving DecidableEq, Fintype

/-- A joint state: who holds MEDIA_LOCK (`some true`: the reindexing
writer, `some false`: the querying reader), each thread's program counter,
the shared cache generation and the reader's copied result. -/
structure SwapState where
  lock : Option Bool
  wpc : Fin 5
  rpc : Fin 4
  cache : CacheGen
  res : Option CacheGen
deriving DecidableEq

/-- Initial state: lock free, both threads before their critical sections,
the old cache in place, nothing copied. -/
def initSwapState : SwapState :=
  { lock := none, wpc := 0, rpc := 0, cache := CacheGen.old, res := none }

/-- The interleaving successors.  Writer: acquire MEDIA_LOCK, mutate the
cache (transiently `mid`), finish the swap (`new`), release.  Reader:
acquire MEDIA_LOCK, copy the cache, release. -/
def swapSuccs (s : SwapState) : List SwapState :=
  (if s.wpc = (0 : Fin 5) ∧ s.lock = none then
      [{ s with lock := some true, wpc := 1 }] else []) ++
  (if s.wpc = (1 : Fin 5) then
      [{ s with cache := CacheGen.mid, wpc := 2 }] else []) ++
  (if s.wpc = (2 : Fin 5) then
      [{ s with cache := CacheGen.new, wpc := 3 }] else []) ++
  (if s.wpc = (3 : Fin 5) then
      [{ s with lock := none, wpc := 4 }] else []) ++
  (if s.rpc = (0 : Fin 4) ∧ s.lock = none then
      [{ s with lock := some false, rpc := 1 }] else []) ++
  (if s.rpc = (1 : Fin 4) then
      [{ s with res := some s.cache, rpc := 2 }] else []) ++
  (if s.rpc = (2 : Fin 4) then
      [{ s with lock := none, rpc := 3 }] else [])

/-- Reachability from the initial state along interleaving steps. -/
inductive SwapReach : SwapState → Prop where
  | init : SwapReach initSwapState
  | step (s t : SwapState) : SwapReach s → t ∈ swapSuccs s → SwapReach t

/-- The mutual-exclusion invariant: a thread inside its critical section
holds the lock, the cache is only `mid` while the writer sits between its
two mutations, and the reader never copied `mid`. -/
def swapInv (s : SwapState) : Prop :=
  ((s.wpc = 1 ∨ s.wpc = 2 ∨ s.wpc = 3) → s.lock = some true) ∧
  ((s.rpc = 1 ∨ s.rpc = 2) → s.lock = some false) ∧
  (s.cache = CacheGen.mid → s.wpc = 2) ∧
  s.res ≠ some CacheGen.mid

instance swapInvDecidable (s : SwapState) : Decidable (swapInv s) := by
  unfold swapInv; infer_instance

/-- The trace states of the C9 witness: the writer completes its swap, then
the reader copies the new list. -/
def swapTrace : List SwapState :=
  [{ lock := some true, wpc := 1, rpc := 0, cache := CacheGen.old, res := none },
   { lock := some true, wpc := 2, rpc := 0, cache := CacheGen.mid, res := none },
   { lock := some true, wpc := 3, rpc := 0, cache := CacheGen.new, res := none },
   { lock := none, wpc := 4, rpc := 0, cache := CacheGen.new, res := none },
   { lock := some false, wpc := 4, rpc := 1, cache := CacheGen.new, res := none },
   { lock := some false, wpc := 4, rpc := 2, cache := CacheGen.new,
     res := some CacheGen.new },
   { lock := none, wpc := 4, rpc := 3, cache := CacheGen.new,
     res := some CacheGen.new }]

/-- For a known positive duration the preview-offset computation is the
clamped arithmetic progression with step `max (d / 9) (1 / 10)`. -/
theorem computePreviewOffsets_pos (d : ℚ) (hd : 0 < d) :
    computePreviewOffsets (some d) =
      (List.range videoPreviewCount).map (fun (i : ℕ) =>
        if max (d - 1 / 2) 0 < max (d / 9) (1 / 10) * ((i : ℚ) + 1) ∧
            0 < max (d - 1 / 2) 0
        then max (d - 1 / 2) 0 else max (d / 9) (1 / 10) * ((i : ℚ) + 1)) := by
  simp only [computePreviewOffsets, if_neg (not_le.mpr hd)]
  norm_num [videoPreviewCount]

/-- A list built by mapping over `List.range` is a chain as soon as every
pair of consecutive images is related. -/
theorem listChainMapRange {α : Type} (R : α → α → Prop) (f : ℕ → α) (n : ℕ)
    (h : ∀ m, m + 1 < n → R (f m) (f (m + 1))) :
    ((List.range n).map f).Chain' R := by
  rw [List.chain'_map]
  cases n with
  | zero => simp
  | succ k =>
    rw [List.chain'_range_succ]
    intro m hm
    exact h m (by omega)

/-- C2 (amended): for a known duration `d` with `0 < d < T` the thumbnail
offset is `d * 0.1`; for `d ≤ 0`, for `d ≥ T`, and for unknown duration it
is `T` (the code treats a zero or negative stored duration like an unknown
one). -/
theorem computeThumbnailOffset_spec (d : ℚ) :
    (0 < d → d < 10 → computeThumbnailOffset (some d) = d * (1 / 10)) ∧
    (d ≤ 0 → computeThumbnailOffset (some d) = 10) ∧
    (10 ≤ d → computeThumbnailOffset (some d) = 10) ∧
    computeThumbnailOffset none = 10 := by
  refine ⟨fun h1 h2 => ?_, fun h => ?_, fun h => ?_, rfl⟩
  · show (if 0 < d then if d < previewStartSeconds then max (d * (1 / 10)) 0
        else previewStartSeconds else previewStartSeconds) = d * (1 / 10)
    rw [if_pos h1, if_pos (by rw [previewStartSeconds]; exact h2),
      max_eq_left (by positivity)]
  · show (if 0 < d then if d < previewStartSeconds then max (d * (1 / 10)) 0
        else previewStartSeconds else previewStartSeconds) = 10
    rw [if_neg (not_lt.mpr h), previewStartSeconds]
  · show (if 0 < d then if d < previewStartSeconds then max (d * (1 / 10)) 0
        else previewStartSeconds else previewStartSeconds) = 10
    rw [if_pos (lt_of_lt_of_le (by norm_num) h),
      if_neg (by rw [previewStartSeconds]; exact not_lt.mpr h), previewStartSeconds]

/-- C2 as stated fails on the code: for the known duration `d = 0`
(`d < T`), the claim demands `d * 0.1 = 0` but compute_thumbnail_offset
returns `T = 10`. -/
theorem c2_counterexample :
    ¬ computeThumbnailOffset (some 0) = 0 * (1 / 10) := by
  norm_num [computeThumbnailOffset, previewStartSeconds]

/-- Witness for the amended C2 at `d = 4`. -/
theorem c2_witness :
    (0:ℚ) < 4 ∧ (4:ℚ) < 10 ∧ computeThumbnailOffset (some 4) = 4 * (1 / 10) :=
  ⟨by norm_num, by norm_num,
    (computeThumbnailOffset_spec 4).1 (by norm_num) (by norm_num)⟩

/-- C1 (amended): for a known positive duration `d` the preview-offset
computation returns exactly `K = 8` timestamps that are non-decreasing,
consecutive offsets differ by at most `max (d / 9) (1 / 10)` (the unclamped
spacing is `d / (K + 1)` floored at `0.1`, not `d / K`), and when
`d > 0.5` no offset exceeds `d - 0.5`. -/
theorem computePreviewOffsets_spec (d : ℚ) (hd : 0 < d) :
    (computePreviewOffsets (some d)).length = videoPreviewCount ∧
    (computePreviewOffsets (some d)).Chain' (· ≤ ·) ∧
    (computePreviewOffsets (some d)).Chain'
      (fun a b => b - a ≤ max (d / 9) (1 / 10)) ∧
    (1 / 2 < d → ∀ o ∈ computePreviewOffsets (some d), o ≤ d - 1 / 2) := by
  rw [computePreviewOffsets_pos d hd]
  set s : ℚ := max (d / 9) (1 / 10) with hs
  set mt : ℚ := max (d - 1 / 2) 0 with hmt
  have hspos : 0 < s := by rw [hs]; exact lt_max_of_lt_right (by norm_num)
  have hFmin : 0 < mt → ∀ x : ℚ,
      (if mt < s * x ∧ 0 < mt then mt else s * x) = min (s * x) mt := by
    intro hpos x
    split_ifs with h
    · exact (min_eq_right (le_of_lt h.1)).symm
    · exact (min_eq_left (not_lt.mp fun hc => h ⟨hc, hpos⟩)).symm
  have hFlin : mt ≤ 0 → ∀ x : ℚ,
      (if mt < s * x ∧ 0 < mt then mt else s * x) = s * x := by
    intro hnp x
    exact if_neg fun h => absurd h.2 (not_lt.mpr hnp)
  have harg : ∀ m : ℕ, s * ((m : ℚ) + 1) ≤ s * (((m + 1 : ℕ) : ℚ) + 1) := by
    intro m
    apply mul_le_mul_of_nonneg_left _ (le_of_lt hspos)
    push_cast; linarith
  refine ⟨by rw [List.length_map, List.length_range], ?_, ?_, ?_⟩
  · apply listChainMapRange
    intro m _
    rcases le_or_lt mt 0 with hnp | hpos
    · rw [hFlin hnp, hFlin hnp]; exact harg m
    · rw [hFmin hpos, hFmin hpos]
      exact min_le_min (harg m) le_rfl
  · apply listChainMapRange
    intro m _
    rcases le_or_lt mt 0 with hnp | hpos
    · rw [hFlin hnp, hFlin hnp]
      have hrw : s * (((m + 1 : ℕ) : ℚ) + 1) - s * ((m : ℚ) + 1) = s := by
        push_cast; ring
      rw [hrw]
    · rw [hFmin hpos, hFmin hpos]
      have hstep : s * (((m + 1 : ℕ) : ℚ) + 1) = s * ((m : ℚ) + 1) + s := by
        push_cast; ring
      rw [hstep]
      set a : ℚ := s * ((m : ℚ) + 1) with ha
      rcases le_total (a + s) mt with h1 | h1
      · rw [min_eq_left h1, min_eq_left (by linarith : a ≤ mt)]; linarith
      · rcases le_total a mt with h2 | h2
        · rw [min_eq_right h1, min_eq_left h2]; linarith
        · rw [min_eq_right h1, min_eq_right h2]; linarith
  · intro hd2 o ho
    obtain ⟨i, -, rfl⟩ := List.mem_map.mp ho
    have hpos : 0 < mt := by rw [hmt]; exact lt_max_of_lt_left (by linarith)
    rw [hFmin hpos]
    refine le_trans (min_le_right _ _) ?_
    rw [hmt]
    exact le_of_eq (max_eq_left (by linarith))

/-- C1 as stated fails on the code: for the known positive duration
`d = 1` the offsets are `[1/9, 2/9, 3/9, 4/9, 1/2, 1/2, 1/2, 1/2]`: they
are not spaced `d / 8` apart (the spacing is `max (d / 9) (1 / 10)`), and
they are not strictly increasing once the `d - 0.5` clamp applies. -/
theorem c1_counterexample :
    ¬ ((computePreviewOffsets (some 1)).length = 8 ∧
       (computePreviewOffsets (some 1)).Chain' (· < ·) ∧
       (computePreviewOffsets (some 1)).Chain' (fun a b => b - a = 1 / 8) ∧
       ∀ o ∈ computePreviewOffsets (some 1), o ≤ 1 - 1 / 2) := by
  have heval : computePreviewOffsets (some 1) =
      [1/9, 2/9, 3/9, 4/9, 1/2, 1/2, 1/2, 1/2] := by
    norm_num [computePreviewOffsets, fallbackPreviewOffsets, videoPreviewCount,
      previewStartSeconds, previewStepSeconds, List.range_succ]
  intro h
  obtain ⟨-, -, hdiff, -⟩ := h
  rw [heval] at hdiff
  obtain ⟨h1, -⟩ := List.chain'_cons.mp hdiff
  norm_num at h1

/-- Witness for the amended C1 at `d = 9`. -/
theorem c1_witness :
    (0:ℚ) < 9 ∧
    ((computePreviewOffsets (some 9)).length = videoPreviewCount ∧
     (computePreviewOffsets (some 9)).Chain' (· ≤ ·) ∧
     (computePreviewOffsets (some 9)).Chain'
       (fun a b => b - a ≤ max ((9:ℚ) / 9) (1 / 10)) ∧
     (1 / 2 < (9:ℚ) → ∀ o ∈ computePreviewOffsets (some 9), o ≤ 9 - 1 / 2)) :=
  ⟨by norm_num, computePreviewOffsets_spec 9 (by norm_num)⟩

/-- C6: when the cached signature for a path equals the file's current
signature, compute_file_hash returns the cached identity, reads no file
bytes and leaves the state untouched; otherwise it returns the digest of the
full contents, overwrites that path's cache entry with the new signature and
identity (leaving every other path's entry alone) and marks the cache
dirty. -/
theorem computeFileHash_spec (env : HashEnv) (st : HashState) (path : String) :
    (∀ e, st.cache path = some e → e.sig = env.stat path →
        (computeFileHash env st path).hash = e.hash ∧
        (computeFileHash env st path).readBytes = false ∧
        (computeFileHash env st path).state = st) ∧
    ((∀ e, st.cache path = some e → e.sig ≠ env.stat path) →
        (computeFileHash env st path).hash = env.digest (env.contents path) ∧
        (computeFileHash env st path).readBytes = true ∧
        (computeFileHash env st path).state.dirty = true ∧
        (computeFileHash env st path).state.cache path =
          some { sig := env.stat path
                 hash := env.digest (env.contents path) } ∧
        (∀ k, k ≠ path →
          (computeFileHash env st path).state.cache k = st.cache k)) := by
  constructor
  · intro e he hsig
    simp [computeFileHash, he, hsig]
  · intro hmiss
    rcases hc : st.cache path with - | e
    · simp [computeFileHash, hc]
      intro k hk
      simp [hk]
    · simp [computeFileHash, hc, hmiss e hc]
      intro k hk
      simp [hk]

/-- Witness for C6: on the concrete cached state, compute_file_hash returns
the cached identity without reading bytes. -/
theorem c6_witness :
    (computeFileHash hashEnvW hashStW "a").hash = "h0" ∧
    (computeFileHash hashEnvW hashStW "a").readBytes = false ∧
    (computeFileHash hashEnvW hashStW "a").state = hashStW :=
  (computeFileHash_spec hashEnvW hashStW "a").1
    { sig := { mtimeNs := 5, size := 3 }, hash := "h0" } (by simp [hashStW]) rfl

/-- C10: a rating mutation for identity `h` rewrites only the score and
updated_at of `h`'s row (play count preserved, 0 on first insert), a
play-count mutation rewrites only the play count and updated_at (score
preserved, 0 on first insert), and neither touches any other identity's
row. -/
theorem ratingStore_frame (db : RatingsDb) (h : String) (delta : Int)
    (now : Int) :
    (∀ row, db h = some row →
        (updateRating db h delta now).2 h =
          some { score := row.score + delta, playCount := row.playCount
                 updatedAt := now } ∧
        (incrementPlayCount db h now).2 h =
          some { score := row.score, playCount := row.playCount + 1
                 updatedAt := now }) ∧
    (db h = none →
        (updateRating db h delta now).2 h =
          some { score := delta, playCount := 0, updatedAt := now } ∧
        (incrementPlayCount db h now).2 h =
          some { score := 0, playCount := 1, updatedAt := now }) ∧
    (∀ k, k ≠ h →
        (updateRating db h delta now).2 k = db k ∧
        (incrementPlayCount db h now).2 k = db k) := by
  refine ⟨fun row hrow => ?_, fun hnone => ?_, fun k hk => ?_⟩
  · constructor <;> simp [updateRating, incrementPlayCount, hrow]
  · constructor <;> simp [updateRating, incrementPlayCount, hnone]
  · rcases hc : db h with - | row <;>
      constructor <;> simp [updateRating, incrementPlayCount, hc, hk]

/-- Witness for C10 at a concrete one-row table. -/
theorem c10_witness :
    ((fun k => if k = "x" then
        some { score := 2, playCount := 7, updatedAt := 0 } else none :
          RatingsDb) "x" =
      some { score := 2, playCount := 7, updatedAt := 0 }) ∧
    (updateRating
        (fun k => if k = "x" then
          some { score := 2, playCount := 7, updatedAt := 0 } else none)
        "x" 1 9).2 "x" =
      some { score := 3, playCount := 7, updatedAt := 9 } ∧
    (incrementPlayCount
        (fun k => if k = "x" then
          some { score := 2, playCount := 7, updatedAt := 0 } else none)
        "x" 9).2 "x" =
      some { score := 2, playCount := 8, updatedAt := 9 } :=
  ⟨by simp, by
    have := (ratingStore_frame
      (fun k => if k = "x" then
        some { score := 2, playCount := 7, updatedAt := 0 } else none)
      "x" 1 9).1 { score := 2, playCount := 7, updatedAt := 0 } (by simp)
    exact ⟨this.1, this.2⟩⟩

/-- C8: after a successful rating mutation for identity `h`, every entry of
the patched in-memory index whose hash equals `h` carries the returned new
score, and after a play-count mutation every such entry carries the returned
new count — so the mutation is visible through every path sharing that
content. -/
theorem apiMutation_visible (db : RatingsDb) (cache : List MediaEntry)
    (h : String) (delta : Int) (now : Int) :
    (∀ db' cache' s, apiRate db cache (some h) delta now = .ok (db', cache', s) →
        ∀ e ∈ cache', e.mediaHash = h → e.rating = s) ∧
    (∀ db' cache' c, apiPlay db cache (some h) now = .ok (db', cache', c) →
        ∀ e ∈ cache', e.mediaHash = h → e.playCount = c) := by
  constructor
  · intro db' cache' s hok e he hhash
    by_cases hdelta : delta = 1 ∨ delta = -1
    · rw [apiRate, if_pos hdelta] at hok
      obtain ⟨-, hcache, hscore⟩ :
          (updateRating db h delta now).2 = db' ∧
          cache.map (fun e =>
            if e.mediaHash = h then
              { e with rating := (updateRating db h delta now).1 } else e) =
            cache' ∧
          (updateRating db h delta now).1 = s := by
        have := Except.ok.inj hok
        exact ⟨congrArg Prod.fst this,
          congrArg (fun p => p.2.1) this, congrArg (fun p => p.2.2) this⟩
      rw [← hcache] at he
      obtain ⟨e0, -, rfl⟩ := List.mem_map.mp he
      by_cases h0 : e0.mediaHash = h
      · simp only [if_pos h0]; exact hscore
      · rw [if_neg h0] at hhash ⊢
        exact absurd hhash h0
    · rw [apiRate, if_neg hdelta] at hok
      exact absurd hok (by simp)
  · intro db' cache' c hok e he hhash
    rw [apiPlay] at hok
    obtain ⟨-, hcache, hcount⟩ :
        (incrementPlayCount db h now).2 = db' ∧
        cache.map (fun e =>
          if e.mediaHash = h then
            { e with playCount := (incrementPlayCount db h now).1 } else e) =
          cache' ∧
        (incrementPlayCount db h now).1 = c := by
      have := Except.ok.inj hok
      exact ⟨congrArg Prod.fst this,
        congrArg (fun p => p.2.1) this, congrArg (fun p => p.2.2) this⟩
    rw [← hcache] at he
    obtain ⟨e0, -, rfl⟩ := List.mem_map.mp he
    by_cases h0 : e0.mediaHash = h
    · simp only [if_pos h0]; exact hcount
    · rw [if_neg h0] at hhash ⊢
      exact absurd hhash h0

/-- Witness for C8: rating "x" (present under two paths) via one request
patches the duplicate entry reached through the other path as well. -/
theorem c8_witness :
    ({ entryW "b/c" with rating := 1 } : MediaEntry).rating = 1 :=
  (apiMutation_visible (fun _ => none) [entryW "a", entryW "b/c"] "x" 1 5).1
    (fun k => if k = "x" then
      some { score := 1, playCount := 0, updatedAt := 5 } else none)
    [{ entryW "a" with rating := 1 }, { entryW "b/c" with rating := 1 }]
    1 rfl { entryW "b/c" with rating := 1 } (by simp) rfl

/-- The preview loop never erases a present preview file. -/
theorem previewLoop_preserves_some (env : ToolEnv) (src h : String)
    (lst : List (Nat × ℚ)) (fs : ArtifactFs) (k : String)
    (hsome : (fs.previews k).isSome) :
    (((previewLoop env src h lst fs).1).previews k).isSome := by
  induction lst generalizing fs with
  | nil => exact hsome
  | cons p rest ih =>
      obtain ⟨index, offset⟩ := p
      simp only [previewLoop]
      split_ifs with h1 h2
      · exact ih fs hsome
      · refine ih _ ?_
        simp only [writePreview]
        split_ifs with h3
        · simp
        · exact hsome
      · refine ih _ ?_
        simp only [writePreview]
        split_ifs with h3
        · simp
        · exact hsome

/-- After the preview loop, the artifact named after every processed pair is
present. -/
theorem previewLoop_mem_some (env : ToolEnv) (src h : String)
    (lst : List (Nat × ℚ)) (fs : ArtifactFs) :
    ∀ p ∈ lst,
      (((previewLoop env src h lst fs).1).previews
        (previewName h p.1)).isSome := by
  induction lst generalizing fs with
  | nil => intro p hp; cases hp
  | cons q rest ih =>
      intro p hp
      obtain ⟨index, offset⟩ := q
      rcases List.mem_cons.mp hp with rfl | hrest
      · simp only [previewLoop]
        split_ifs with h1 h2
        · exact previewLoop_preserves_some env src h rest fs _ h1
        · refine previewLoop_preserves_some env src h rest _ _ ?_
          simp [writePreview]
        · refine previewLoop_preserves_some env src h rest _ _ ?_
          simp [writePreview]
      · simp only [previewLoop]
        split_ifs with h1 h2
        · exact ih fs p hrest
        · exact ih _ p hrest
        · exact ih _ p hrest

/-- When every processed artifact already exists, the preview loop neither
writes nor invokes ffmpeg. -/
theorem previewLoop_skip (env : ToolEnv) (src h : String)
    (lst : List (Nat × ℚ)) (fs : ArtifactFs)
    (hall : ∀ p ∈ lst, ((fs.previews (previewName h p.1)).isSome)) :
    (previewLoop env src h lst fs).1 = fs ∧
    (previewLoop env src h lst fs).2.2 = 0 := by
  induction lst with
  | nil => exact ⟨rfl, rfl⟩
  | cons q rest ih =>
      obtain ⟨index, offset⟩ := q
      have hhead := hall (index, offset) (List.mem_cons_self _ _)
      simp only [previewLoop, if_pos hhead]
      exact ih fun p hp => hall p (List.mem_cons_of_mem _ hp)

/-- The preview loop never touches the thumbnails directory. -/
theorem previewLoop_thumbs (env : ToolEnv) (src h : String)
    (lst : List (Nat × ℚ)) (fs : ArtifactFs) :
    ((previewLoop env src h lst fs).1).thumbs = fs.thumbs := by
  induction lst generalizing fs with
  | nil => rfl
  | cons q rest ih =>
      obtain ⟨index, offset⟩ := q
      simp only [previewLoop]
      split_ifs with h1 h2
      · exact ih fs
      · rw [ih]; rfl
      · rw [ih]; rfl

/-- The preview loop leaves names it never writes unchanged. -/
theorem previewLoop_frame (env : ToolEnv) (src h : String)
    (lst : List (Nat × ℚ)) (fs : ArtifactFs) (k : String)
    (hk : ∀ p ∈ lst, previewName h p.1 ≠ k) :
    ((previewLoop env src h lst fs).1).previews k = fs.previews k := by
  induction lst generalizing fs with
  | nil => rfl
  | cons q rest ih =>
      obtain ⟨index, offset⟩ := q
      have hqk : previewName h index ≠ k := hk _ (List.mem_cons_self _ _)
      have htail : ∀ p ∈ rest, previewName h p.1 ≠ k :=
        fun p hp => hk p (List.mem_cons_of_mem _ hp)
      simp only [previewLoop]
      split_ifs with h1 h2
      · exact ih fs htail
      · rw [ih _ htail]; simp [writePreview, hqk]
        intro hc; exact absurd hc.symm hqk
      · rw [ih _ htail]; simp [writePreview, hqk]
        intro hc; exact absurd hc.symm hqk

/-- Appending to a fixed string on the left is injective. -/
theorem stringAppendCancelLeft {a b c : String} (h : a ++ b = a ++ c) :
    b = c := by
  have hd : a.data ++ b.data = a.data ++ c.data := by
    have hdata := congrArg String.data h
    simpa [String.data_append] using hdata
  have hbc := List.append_cancel_left hd
  exact congrArg String.mk hbc

/-- Distinct preview indices below the preview count give distinct artifact
names. -/
theorem previewName_inj (h : String) {i j : Nat} (hi : i < videoPreviewCount)
    (hj : j < videoPreviewCount) (hne : i ≠ j) :
    previewName h i ≠ previewName h j := by
  intro heq
  have hsuffix : "_" ++ toString i ++ ".jpg" = "_" ++ toString j ++ ".jpg" :=
    stringAppendCancelLeft heq
  rw [videoPreviewCount] at hi hj
  revert hsuffix
  revert hne
  interval_cases i <;> interval_cases j <;> decide

/-- The preview names list returned by the loop enumerates the processed
pairs in order. -/
theorem previewLoop_names (env : ToolEnv) (src h : String)
    (lst : List (Nat × ℚ)) (fs : ArtifactFs) :
    (previewLoop env src h lst fs).2.1 =
      lst.map (fun p => previewName h p.1) := by
  induction lst generalizing fs with
  | nil => rfl
  | cons q rest ih =>
      obtain ⟨index, offset⟩ := q
      simp only [previewLoop, List.map_cons]
      split_ifs with h1 h2 <;> rw [ih]

/-- A pair processed with the artifact absent and ffmpeg failing ends with
the zero-length sentinel in place (provided indices are unique and below the
preview count, as they are for enumerated offsets). -/
theorem previewLoop_sentinel (env : ToolEnv) (src h : String)
    (lst : List (Nat × ℚ)) (fs : ArtifactFs)
    (hnodup : (lst.map Prod.fst).Nodup)
    (hbound : ∀ p ∈ lst, p.1 < videoPreviewCount)
    (i : Nat) (off : ℚ) (hmem : (i, off) ∈ lst)
    (habsent : fs.previews (previewName h i) = none)
    (hfail : env.ffmpegOk src (previewName h i) (max off 0) = false) :
    ((previewLoop env src h lst fs).1).previews (previewName h i) =
      some 0 := by
  induction lst generalizing fs with
  | nil => cases hmem
  | cons q rest ih =>
      obtain ⟨index, offset⟩ := q
      rw [List.map_cons] at hnodup
      have hhead_notmem := (List.nodup_cons.mp hnodup).1
      have htailnodup := (List.nodup_cons.mp hnodup).2
      have htailbound : ∀ p ∈ rest, p.1 < videoPreviewCount :=
        fun p hp => hbound p (List.mem_cons_of_mem _ hp)
      rcases List.mem_cons.mp hmem with heq | hrest
      · cases heq
        simp only [previewLoop]
        rw [if_neg (by simp [habsent]), if_neg (by simp [hfail])]
        have hrest_ne : ∀ p ∈ rest, previewName h p.1 ≠ previewName h i := by
          intro p hp
          have hpi : p.1 ≠ i := by
            intro hc
            have hm := List.mem_map_of_mem Prod.fst hp
            rw [hc] at hm
            exact hhead_notmem hm
          exact previewName_inj h
            (htailbound p hp)
            (hbound (i, off) (List.mem_cons_self _ _)) hpi
        rw [previewLoop_frame env src h rest _ _ hrest_ne]
        simp [writePreview]
      · have hne : index ≠ i := by
          intro hc
          subst hc
          have hm := List.mem_map_of_mem Prod.fst hrest
          exact hhead_notmem hm
        have hname : previewName h index ≠ previewName h i :=
          previewName_inj h
            (hbound (index, offset) (List.mem_cons_self _ _))
            (htailbound (i, off) hrest) hne
        simp only [previewLoop]
        split_ifs with h1 h2
        · exact ih fs htailnodup htailbound hrest habsent
        · refine ih _ htailnodup htailbound hrest ?_
          simp [writePreview, habsent]
          intro hc; exact absurd hc.symm hname
        · refine ih _ htailnodup htailbound hrest ?_
          simp [writePreview, habsent]
          intro hc; exact absurd hc.symm hname

/-- Both branches of compute_preview_offsets return exactly
VIDEO_PREVIEW_COUNT offsets. -/
theorem computePreviewOffsets_length (duration : Option ℚ) :
    (computePreviewOffsets duration).length = videoPreviewCount := by
  rcases duration with - | d
  · simp [computePreviewOffsets, fallbackPreviewOffsets]
  · by_cases hd : d ≤ 0
    · simp [computePreviewOffsets, hd, fallbackPreviewOffsets]
    · simp [computePreviewOffsets, hd]

/-- The enumerated preview offsets carry pairwise distinct indices. -/
theorem enumOffsets_nodup (duration : Option ℚ) :
    (((computePreviewOffsets duration).enum).map Prod.fst).Nodup :=
  List.nodup_enum_map_fst _

/-- Every enumerated preview index is below the preview count. -/
theorem enumOffsets_bound (duration : Option ℚ) :
    ∀ p ∈ (computePreviewOffsets duration).enum, p.1 < videoPreviewCount := by
  intro p hp
  rw [List.mem_enum_iff_getElem?] at hp
  obtain ⟨hlt, -⟩ := List.getElem?_eq_some_iff.mp hp
  rwa [computePreviewOffsets_length] at hlt

/-- For a video, ensure_thumbnails returns normally with the thumbnail name
and the preview names of all enumerated offsets. -/
theorem ensure_video_res (env : ToolEnv) (fs : ArtifactFs)
    (src mediaHash : String) (duration : Option ℚ) :
    (ensureThumbnails env fs src mediaHash true duration).res =
      .ok (thumbName mediaHash,
        ((computePreviewOffsets duration).enum).map
          (fun p => previewName mediaHash p.1)) := by
  by_cases h1 : (fs.thumbs (thumbName mediaHash)).isSome
  · simp [ensureThumbnails, h1, previewLoop_names]
  · by_cases h2 : env.ffmpegOk src (thumbName mediaHash)
        (max (computeThumbnailOffset duration) 0) = true
    · simp [ensureThumbnails, h1, h2, previewLoop_names]
    · simp [ensureThumbnails, h1, h2, previewLoop_names]

/-- For a video, the thumbnail artifact is present after ensure_thumbnails
(either it already existed, or a frame or a sentinel was written). -/
theorem ensure_video_thumbSome (env : ToolEnv) (fs : ArtifactFs)
    (src mediaHash : String) (duration : Option ℚ) :
    ((ensureThumbnails env fs src mediaHash true duration).fs.thumbs
      (thumbName mediaHash)).isSome := by
  by_cases h1 : (fs.thumbs (thumbName mediaHash)).isSome
  · simp [ensureThumbnails, h1, previewLoop_thumbs]
  · by_cases h2 : env.ffmpegOk src (thumbName mediaHash)
        (max (computeThumbnailOffset duration) 0) = true
    · simp [ensureThumbnails, h1, h2, previewLoop_thumbs, writeThumb]
    · simp [ensureThumbnails, h1, h2, previewLoop_thumbs, writeThumb]

/-- For a video, every enumerated preview artifact is present after
ensure_thumbnails. -/
theorem ensure_video_prevSome (env : ToolEnv) (fs : ArtifactFs)
    (src mediaHash : String) (duration : Option ℚ) :
    ∀ p ∈ (computePreviewOffsets duration).enum,
      ((ensureThumbnails env fs src mediaHash true duration).fs.previews
        (previewName mediaHash p.1)).isSome := by
  intro p hp
  by_cases h1 : (fs.thumbs (thumbName mediaHash)).isSome
  · simp only [ensureThumbnails, h1]
    simpa using previewLoop_mem_some env src mediaHash _ fs p hp
  · by_cases h2 : env.ffmpegOk src (thumbName mediaHash)
        (max (computeThumbnailOffset duration) 0) = true
    · simp only [ensureThumbnails, h1, h2]
      simpa using previewLoop_mem_some env src mediaHash _ _ p hp
    · simp only [ensureThumbnails, h1, h2]
      simpa using previewLoop_mem_some env src mediaHash _ _ p hp

/-- For a video whose thumbnail was absent, a failed ffmpeg call leaves the
zero-length thumbnail sentinel. -/
theorem ensure_video_thumbSentinel (env : ToolEnv) (fs : ArtifactFs)
    (src mediaHash : String) (duration : Option ℚ)
    (habs : fs.thumbs (thumbName mediaHash) = none)
    (hfail : env.ffmpegOk src (thumbName mediaHash)
      (max (computeThumbnailOffset duration) 0) = false) :
    (ensureThumbnails env fs src mediaHash true duration).fs.thumbs
      (thumbName mediaHash) = some 0 := by
  have h1 : ¬ (fs.thumbs (thumbName mediaHash)).isSome := by simp [habs]
  have h2 : ¬ env.ffmpegOk src (thumbName mediaHash)
      (max (computeThumbnailOffset duration) 0) = true := by simp [hfail]
  simp [ensureThumbnails, h1, h2, previewLoop_thumbs, writeThumb]

/-- For a video, an enumerated preview whose artifact was absent and whose
ffmpeg call fails ends as a zero-length sentinel. -/
theorem ensure_video_prevSentinel (env : ToolEnv) (fs : ArtifactFs)
    (src mediaHash : String) (duration : Option ℚ)
    (i : Nat) (off : ℚ) (hmem : (i, off) ∈ (computePreviewOffsets duration).enum)
    (habs : fs.previews (previewName mediaHash i) = none)
    (hfail : env.ffmpegOk src (previewName mediaHash i) (max off 0) = false) :
    (ensureThumbnails env fs src mediaHash true duration).fs.previews
      (previewName mediaHash i) = some 0 := by
  by_cases h1 : (fs.thumbs (thumbName mediaHash)).isSome
  · simp only [ensureThumbnails, h1]
    simpa using previewLoop_sentinel env src mediaHash _ fs
      (enumOffsets_nodup duration) (enumOffsets_bound duration)
      i off hmem habs hfail
  · by_cases h2 : env.ffmpegOk src (thumbName mediaHash)
        (max (computeThumbnailOffset duration) 0) = true
    · simp only [ensureThumbnails, h1, h2]
      simpa using previewLoop_sentinel env src mediaHash _
        (writeThumb fs (thumbName mediaHash) 1)
        (enumOffsets_nodup duration) (enumOffsets_bound duration)
        i off hmem habs hfail
    · simp only [ensureThumbnails, h1, h2]
      simpa using previewLoop_sentinel env src mediaHash _
        (writeThumb fs (thumbName mediaHash) 0)
        (enumOffsets_nodup duration) (enumOffsets_bound duration)
        i off hmem habs hfail

/-- C3 (amended): for VIDEO files the claim holds — ensure_thumbnails
always returns normally, afterwards the thumbnail artifact and all eight
preview artifacts exist, and whenever one of them was absent and its ffmpeg
invocation fails, the zero-length sentinel is written at the expected path.
(For image files it does not hold: an undecodable image raises out of
generate_image_thumbnail with no sentinel written — only the
Pillow-missing case is handled, by copying the source bytes.) -/
theorem ensureThumbnails_video_spec (env : ToolEnv) (fs : ArtifactFs)
    (src mediaHash : String) (duration : Option ℚ) :
    (ensureThumbnails env fs src mediaHash true duration).res =
      .ok (thumbName mediaHash,
        ((computePreviewOffsets duration).enum).map
          (fun p => previewName mediaHash p.1)) ∧
    ((ensureThumbnails env fs src mediaHash true duration).fs.thumbs
      (thumbName mediaHash)).isSome ∧
    (∀ p ∈ (computePreviewOffsets duration).enum,
      ((ensureThumbnails env fs src mediaHash true duration).fs.previews
        (previewName mediaHash p.1)).isSome) ∧
    (fs.thumbs (thumbName mediaHash) = none →
      env.ffmpegOk src (thumbName mediaHash)
        (max (computeThumbnailOffset duration) 0) = false →
      (ensureThumbnails env fs src mediaHash true duration).fs.thumbs
        (thumbName mediaHash) = some 0) ∧
    (∀ i off, (i, off) ∈ (computePreviewOffsets duration).enum →
      fs.previews (previewName mediaHash i) = none →
      env.ffmpegOk src (previewName mediaHash i) (max off 0) = false →
      (ensureThumbnails env fs src mediaHash true duration).fs.previews
        (previewName mediaHash i) = some 0) :=
  ⟨ensure_video_res env fs src mediaHash duration,
   ensure_video_thumbSome env fs src mediaHash duration,
   ensure_video_prevSome env fs src mediaHash duration,
   ensure_video_thumbSentinel env fs src mediaHash duration,
   fun i off hmem habs hfail =>
     ensure_video_prevSentinel env fs src mediaHash duration i off hmem habs hfail⟩

/-- C3 as stated fails on the code: for an image whose decode fails,
ensure_thumbnails raises (the error propagates to the caller) and leaves no
zero-length sentinel at the expected thumbnail path. -/
theorem c3_counterexample :
    (ensureThumbnails toolEnvBadImage emptyFs "broken.png" "h" false none).res =
      .error () ∧
    (ensureThumbnails toolEnvBadImage emptyFs "broken.png" "h" false none).fs.thumbs
      (thumbName "h") = none :=
  ⟨rfl, rfl⟩

/-- Witness for the amended C3: on an empty store with failing ffmpeg, the
video thumbnail ends as a zero-length sentinel. -/
theorem c3_witness :
    (ensureThumbnails toolEnvFfmpegFail emptyFs "v.mp4" "h" true (some 9)).fs.thumbs
      (thumbName "h") = some 0 :=
  (ensureThumbnails_video_spec toolEnvFfmpegFail emptyFs "v.mp4" "h"
    (some 9)).2.2.2.1 rfl rfl

/-- An image-kind ensure_thumbnails call never invokes ffmpeg. -/
theorem ensureThumbnails_image_calls (env : ToolEnv) (fs : ArtifactFs)
    (src mediaHash : String) (duration : Option ℚ) :
    (ensureThumbnails env fs src mediaHash false duration).ffmpegCalls = 0 := by
  by_cases h1 : (fs.thumbs (thumbName mediaHash)).isSome
  · simp [ensureThumbnails, h1]
  · by_cases hpil : env.pillowAvailable = false
    · simp [ensureThumbnails, h1, generateImageThumbnail, hpil]
    · by_cases hdec : env.imageDecodeOk src = true
      · simp [ensureThumbnails, h1, generateImageThumbnail, hpil, hdec]
      · simp [ensureThumbnails, h1, generateImageThumbnail, hpil, hdec]

/-- An image-kind call that returns normally leaves the thumbnail artifact
present: it already existed, or the byte-copy fallback or the re-encode
wrote it. -/
theorem ensureThumbnails_image_ok_thumbSome (env : ToolEnv) (fs : ArtifactFs)
    (src mediaHash : String) (duration : Option ℚ) (a : String × List String)
    (hok : (ensureThumbnails env fs src mediaHash false duration).res = .ok a) :
    ((ensureThumbnails env fs src mediaHash false duration).fs.thumbs
      (thumbName mediaHash)).isSome := by
  by_cases h1 : (fs.thumbs (thumbName mediaHash)).isSome
  · simp [ensureThumbnails, h1]
  · by_cases hpil : env.pillowAvailable = false
    · simp [ensureThumbnails, h1, generateImageThumbnail, hpil, writeThumb]
    · by_cases hdec : env.imageDecodeOk src = true
      · simp [ensureThumbnails, h1, generateImageThumbnail, hpil, hdec,
          writeThumb]
      · simp [ensureThumbnails, h1, generateImageThumbnail, hpil, hdec] at hok

/-- A call that finds the thumbnail artifact already present makes no
image-tool (Pillow) invocation. -/
theorem ensureThumbnails_skip_pillow (env : ToolEnv) (fs : ArtifactFs)
    (src mediaHash : String) (isVideo : Bool) (duration : Option ℚ)
    (hsome : (fs.thumbs (thumbName mediaHash)).isSome) :
    (ensureThumbnails env fs src mediaHash isVideo duration).pillowCalls = 0 := by
  cases isVideo <;> simp [ensureThumbnails, hsome]

/-- A video-kind call never invokes the image tool. -/
theorem ensureThumbnails_video_pillow (env : ToolEnv) (fs : ArtifactFs)
    (src mediaHash : String) (duration : Option ℚ) :
    (ensureThumbnails env fs src mediaHash true duration).pillowCalls = 0 := by
  by_cases h1 : (fs.thumbs (thumbName mediaHash)).isSome
  · simp [ensureThumbnails, h1]
  · by_cases h2 : env.ffmpegOk src (thumbName mediaHash)
        (max (computeThumbnailOffset duration) 0) = true
    · simp [ensureThumbnails, h1, h2]
    · simp [ensureThumbnails, h1, h2]

/-- C5 (amended): a second ensure_thumbnails call for the same identity,
kind and duration (from any source path) performs zero ffmpeg invocations —
once an output file, frame or zero-length sentinel, exists for an
(identity, frame-index) pair, ffmpeg generation is never retried — and,
whenever the first call returned normally, zero image-tool (Pillow)
invocations as well.  (After an image decode failure the first call raises
without writing any output, and the second call invokes the image decoder
again.) -/
theorem ensureThumbnails_idempotent (env : ToolEnv) (fs : ArtifactFs)
    (src src2 mediaHash : String) (isVideo : Bool) (duration : Option ℚ) :
    (ensureThumbnails env
        (ensureThumbnails env fs src mediaHash isVideo duration).fs
        src2 mediaHash isVideo duration).ffmpegCalls = 0 ∧
    (∀ a, (ensureThumbnails env fs src mediaHash isVideo duration).res = .ok a →
      (ensureThumbnails env
          (ensureThumbnails env fs src mediaHash isVideo duration).fs
          src2 mediaHash isVideo duration).pillowCalls = 0) := by
  constructor
  · cases isVideo with
    | false => exact ensureThumbnails_image_calls env _ src2 mediaHash duration
    | true =>
        have hthumb := ensure_video_thumbSome env fs src mediaHash duration
        have hprev := ensure_video_prevSome env fs src mediaHash duration
        obtain ⟨fs1, hfs1⟩ :
            ∃ x, (ensureThumbnails env fs src mediaHash true duration).fs = x :=
          ⟨_, rfl⟩
        rw [hfs1] at hthumb hprev ⊢
        have hskip := (previewLoop_skip env src2 mediaHash
          (computePreviewOffsets duration).enum fs1 (fun p hp => hprev p hp)).2
        simp [ensureThumbnails, hthumb, hskip]
  · intro a hok
    cases isVideo with
    | true => exact ensureThumbnails_video_pillow env _ src2 mediaHash duration
    | false =>
        exact ensureThumbnails_skip_pillow env _ src2 mediaHash false duration
          (ensureThumbnails_image_ok_thumbSome env fs src mediaHash duration
            a hok)

/-- C5 as stated fails on the code: for an image whose decode fails, the
first call raises without writing any output (no sentinel, exactly the gap
C3 records), so the second call invokes the external image tool (Pillow
decode) again — one tool invocation, not zero. -/
theorem c5_counterexample :
    ¬ ((ensureThumbnails toolEnvBadImage
          (ensureThumbnails toolEnvBadImage emptyFs "broken.png" "h" false
            none).fs "broken.png" "h" false none).ffmpegCalls = 0 ∧
       (ensureThumbnails toolEnvBadImage
          (ensureThumbnails toolEnvBadImage emptyFs "broken.png" "h" false
            none).fs "broken.png" "h" false none).pillowCalls = 0) := by
  intro h
  exact absurd h.2 (by decide)

/-- Witness for the amended C5: after a successful image generation, the
second call performs zero invocations of either tool. -/
theorem c5_witness :
    (ensureThumbnails toolEnvFfmpegFail
      (ensureThumbnails toolEnvFfmpegFail emptyFs "a.png" "h" false none).fs
      "a.png" "h" false none).ffmpegCalls = 0 ∧
    (ensureThumbnails toolEnvFfmpegFail
      (ensureThumbnails toolEnvFfmpegFail emptyFs "a.png" "h" false none).fs
      "a.png" "h" false none).pillowCalls = 0 :=
  ⟨(ensureThumbnails_idempotent toolEnvFfmpegFail emptyFs "a.png" "a.png" "h"
      false none).1,
   (ensureThumbnails_idempotent toolEnvFfmpegFail emptyFs "a.png" "a.png" "h"
      false none).2 (thumbName "h", []) rfl⟩

/-- C4: evaluation at the failing input.  With scanned files
["gone.mp4", "ok.jpg"] where "gone.mp4" has vanished, refresh_media_index
propagates the I/O error and aborts: no new index is swapped in and the
surviving "ok.jpg" is not indexed — the claimed recovery (drop the vanished
file, index the rest) never happens. -/
theorem c4_failing_eval :
    (refreshMediaIndex scanEnvW ["gone.mp4", "ok.jpg"] [oldRowW]).1 =
      .error () ∧
    (refreshMediaIndex scanEnvW ["gone.mp4", "ok.jpg"] [oldRowW]).2 =
      [oldRowW] ∧
    ¬ ∃ rows, (refreshMediaIndex scanEnvW ["gone.mp4", "ok.jpg"] [oldRowW]).1 =
        .ok rows ∧ ∃ r ∈ rows, r.relativePath = "ok.jpg" := by
  refine ⟨rfl, rfl, ?_⟩
  rintro ⟨rows, hok, -⟩
  rw [show (refreshMediaIndex scanEnvW ["gone.mp4", "ok.jpg"] [oldRowW]).1 =
      .error () from rfl] at hok
  cases hok

/-- C7: evaluation at the failing input.  The scan skips hidden files and
prunes the metadata area, but it returns ".secret/movie.mp4", whose first
component starts with a dot: hidden directories are traversed (the filter
that would drop them is dead code), contradicting the claim that no
returned path has a dot-component. -/
theorem c7_failing_eval :
    ".secret/movie.mp4" ∈ iterMediaFiles treeW ∧
    "pic.png" ∈ iterMediaFiles treeW ∧
    ".hidden.png" ∉ iterMediaFiles treeW ∧
    "_metadata/x.jpg" ∉ iterMediaFiles treeW := by
  have hmem : ∀ s : String, s ∈ iterMediaFiles treeW ↔
      s ∈ (walkFiles [] treeW).map joinPath := by
    intro s
    exact List.mem_mergeSort
  refine ⟨?_, ?_, ?_, ?_⟩
  · rw [hmem]; decide
  · rw [hmem]; decide
  · rw [hmem]; decide
  · rw [hmem]; decide

/-- The invariant is preserved by every interleaving step. -/
theorem swapInv_step :
    ∀ (l : Option Bool) (w : Fin 5) (r : Fin 4) (c : CacheGen)
      (q : Option CacheGen),
      swapInv ⟨l, w, r, c, q⟩ →
      ∀ t ∈ swapSuccs ⟨l, w, r, c, q⟩, swapInv t := by
  decide

/-- The invariant holds in every reachable state. -/
theorem swapReach_inv (s : SwapState) (h : SwapReach s) : swapInv s := by
  induction h with
  | init => decide
  | step s t _ hmem ih => exact swapInv_step s.lock s.wpc s.rpc s.cache s.res ih t hmem

/-- C9: in every reachable interleaving of a reindex swap and a concurrent
query — both critical sections guarded by MEDIA_LOCK — the reader's copy of
the index is the complete old list or the complete new list, never the
transient mid-swap contents. -/
theorem querySeesOldOrNew (s : SwapState) (h : SwapReach s) :
    s.res = none ∨ s.res = some CacheGen.old ∨ s.res = some CacheGen.new := by
  have hinv := swapReach_inv s h
  rcases hres : s.res with - | g
  · exact Or.inl rfl
  · cases g with
    | old => exact Or.inr (Or.inl rfl)
    | mid => exact absurd hres hinv.2.2.2
    | new => exact Or.inr (Or.inr rfl)

/-- Witness for C9 at the end state of a concrete full trace. -/
theorem c9_witness :
    ({ lock := none, wpc := 4, rpc := 3, cache := CacheGen.new,
        res := some CacheGen.new } : SwapState).res = none ∨
    ({ lock := none, wpc := 4, rpc := 3, cache := CacheGen.new,
        res := some CacheGen.new } : SwapState).res = some CacheGen.old ∨
    ({ lock := none, wpc := 4, rpc := 3, cache := CacheGen.new,
        res := some CacheGen.new } : SwapState).res = some CacheGen.new :=
  querySeesOldOrNew _
    (SwapReach.step (swapTrace.get ⟨5, by decide⟩) _
      (SwapReach.step (swapTrace.get ⟨4, by decide⟩) _
        (SwapReach.step (swapTrace.get ⟨3, by decide⟩) _
          (SwapReach.step (swapTrace.get ⟨2, by decide⟩) _
            (SwapReach.step (swapTrace.get ⟨1, by decide⟩) _
              (SwapReach.step (swapTrace.get ⟨0, by decide⟩) _
                (SwapReach.step initSwapState _ SwapReach.init (by decide))
                (by decide))
              (by decide))
            (by decide))
          (by decide))
        (by decide))
      (by decide))

end Webviewer
